import Mathlib

/-!
Verification of the buzz-word bingo board model and session logic
(`buzz_word_bingo_2.0.pyw`), shallowly embedded in Lean.

Python lists are modelled as `List`; Python list indexing, which accepts
negative indices (counting from the end) and raises `IndexError` outside
`-len .. len-1`, is modelled by `pyGet`/`pySet` returning `Option`.
Randomness (`random.sample`) is external: `generate_board` takes the
sampled word list as an argument, and theorems hypothesise exactly what
`random.sample(pool, 24)` guarantees on a duplicate-free pool (length 24,
no duplicates, all members of the pool).
-/

/-- Python list read `l[i]`: a negative index counts from the end of the
list; an index outside `-len l .. len l - 1` raises `IndexError` (`none`). -/
def pyGet {α : Type} (l : List α) (i : Int) : Option α :=
  if 0 ≤ i then l.get? i.toNat
  else if -(l.length : Int) ≤ i then l.get? (i + l.length).toNat
  else none

/-- Python list item assignment `l[i] = a`, with the same index rules as
`pyGet`. -/
def pySet {α : Type} (l : List α) (i : Int) (a : α) : Option (List α) :=
  if 0 ≤ i then
    if i < (l.length : Int) then some (l.set i.toNat a) else none
  else if -(l.length : Int) ≤ i then some (l.set (i + l.length).toNat a)
  else none

/-- The board state of class `BingoBoard`: the 5x5 grid of phrases and the
parallel grid of marked flags.  (`buzzwords`, `size` and `free_space_pos`
are constants of the session and are modelled as plain definitions.) -/
structure BingoBoard where
  board : List (List String)
  marked : List (List Bool)
  deriving DecidableEq, Repr

namespace BingoBoard

/-- `self.size = 5`. -/
def size : Nat := 5

/-- `self.free_space_pos = (2, 2)`: center position (row 2, col 2). -/
def free_space_pos : Nat × Nat := (2, 2)

/-- Inner loop of `generate_board`: fills one row, walking the column list
and threading the running index `idx` into the sampled word list.  The cell
at `free_space_pos` gets the sentinel `"FREE SPACE"`; every other cell gets
`selected[idx]` and advances `idx`. -/
def fillRow (selected : List String) (row : Nat) :
    List Nat → Nat → List String × Nat
  | [], idx => ([], idx)
  | col :: cols, idx =>
    if (row, col) = free_space_pos then
      let rest := fillRow selected row cols idx
      ("FREE SPACE" :: rest.1, rest.2)
    else
      let rest := fillRow selected row cols (idx + 1)
      (selected.getD idx "" :: rest.1, rest.2)

/-- Outer loop of `generate_board`: builds the rows in order, threading the
running index across rows. -/
def fillRows (selected : List String) : List Nat → Nat → List (List String)
  | [], _ => []
  | row :: rows, idx =>
    let r := fillRow selected row (List.range size) idx
    r.1 :: fillRows selected rows r.2

/-- `m[r][c] = a` on a nested list (both indices known in range). -/
def setCell {α : Type} (m : List (List α)) (r c : Nat) (a : α) :
    List (List α) :=
  m.set r ((m.getD r []).set c a)

/-- The marked grid built at the end of `generate_board` (and rebuilt by
`reset_marks`): `[[False]*5 for _ in range(5)]`, then
`marked[2][2] = True`. -/
def initMarked : List (List Bool) :=
  setCell (List.replicate size (List.replicate size false))
    free_space_pos.1 free_space_pos.2 true

/-- `generate_board`, with the result of `random.sample(self.buzzwords, 24)`
passed in as `selected` (the sampling itself is random and external; see
`generate_board_run` for its failure condition). -/
def generate_board (selected : List String) : BingoBoard :=
  { board := fillRows selected (List.range size) 0
    marked := initMarked }

/-- `random.sample(pool, 24)` raises `ValueError` exactly when the
population has fewer than 24 entries; on success `generate_board` runs on
the sample.  This wraps the two steps of the Python `generate_board`. -/
def generate_board_run (pool selected : List String) : Option BingoBoard :=
  if 24 ≤ pool.length then some (generate_board selected) else none

/-- `toggle_mark(row, col)`: if `(row, col) != free_space_pos`, executes
`self.marked[row][col] = not self.marked[row][col]` with Python indexing
(so an index outside `-5 .. 4` raises, modelled as `none`, and a negative
in-range index wraps). -/
def toggle_mark (b : BingoBoard) (row col : Int) : Option BingoBoard :=
  if (row, col) ≠ ((free_space_pos.1 : Int), (free_space_pos.2 : Int)) then do
    let r ← pyGet b.marked row
    let v ← pyGet r col
    let r2 ← pySet r col (!v)
    let m2 ← pySet b.marked row r2
    some { b with marked := m2 }
  else
    some b

/-- `reset_marks`: rebuild the marked grid with only the free space set. -/
def reset_marks (b : BingoBoard) : BingoBoard :=
  { b with marked := initMarked }

/-- `self.marked[row][col]` as read by `check_bingo` (indices always in
range there for a well-formed board). -/
def markedAt (b : BingoBoard) (row col : Nat) : Bool :=
  (b.marked.getD row []).getD col false

/-- `check_bingo`: rows 0..4, then columns 0..4, then the two diagonals. -/
def check_bingo (b : BingoBoard) : List (String × Nat) :=
  let rows := (List.range size).filterMap fun row =>
    if (List.range size).all (fun col => markedAt b row col) then
      some ("row", row) else none
  let cols := (List.range size).filterMap fun col =>
    if (List.range size).all (fun row => markedAt b row col) then
      some ("col", col) else none
  let d0 := if (List.range size).all (fun i => markedAt b i i) then
      [(("diag" : String), 0)] else []
  let d1 := if (List.range size).all (fun i => markedAt b i (size - 1 - i)) then
      [(("diag" : String), 1)] else []
  rows ++ (cols ++ (d0 ++ d1))

/-- Well-formedness of the marked grid: 5 rows of 5 flags.  Holds for every
board produced by `generate_board` and preserved by all operations. -/
def WF (b : BingoBoard) : Prop :=
  b.marked.length = size ∧ ∀ r ∈ b.marked, r.length = size

instance : DecidablePred WF := fun b => by
  unfold WF; infer_instance

/-- The 12 possible line descriptors, in the order `check_bingo` reports
them: rows 0..4, columns 0..4, the two diagonals. -/
def lineDescriptors : List (String × Nat) :=
  ((List.range size).map fun r => (("row" : String), r)) ++
    (((List.range size).map fun c => (("col" : String), c)) ++
      ([(("diag" : String), 0)] ++ [(("diag" : String), 1)]))

/-- The 5 cells making up a line, by descriptor. -/
def lineCells : String × Nat → List (Nat × Nat)
  | ("row", r) => (List.range size).map fun c => (r, c)
  | ("col", c) => (List.range size).map fun r => (r, c)
  | ("diag", 0) => (List.range size).map fun i => (i, i)
  | ("diag", 1) => (List.range size).map fun i => (i, size - 1 - i)
  | _ => []

/-- The phrases of the 24 non-center cells, in row-major order skipping the
center. -/
def nonCenterWords (b : BingoBoard) : List String :=
  ((List.range size).map fun r => (List.range size).filterMap fun c =>
    if (r, c) = free_space_pos then none
    else some ((b.board.getD r []).getD c "")).flatten

end BingoBoard

/-- The session state of class `BingoUI` relevant to the board and win
logic: the owned board, the `bingo_active` flag, the cached
`winning_lines`, and whether the Continue-Playing button is enabled (the
banner is shown exactly while it is).  `celebrations` is instrumentation:
it counts how many times the celebration (confetti, banner, sound) has
been launched since the state was created. -/
structure BingoUI where
  board : BingoBoard
  bingo_active : Bool
  winning_lines : List (String × Nat)
  continue_button_enabled : Bool
  celebrations : Nat
  deriving DecidableEq, Repr

namespace BingoUI

/-- The session phases of the spec's state machine, read off the UI flags:
`Idle` while no win has been detected, `Celebrating` while the banner is up
(Continue-Playing enabled), `Acknowledged` after it has been dismissed. -/
inductive Phase where
  | Idle | Celebrating | Acknowledged
  deriving DecidableEq, Repr

/-- The current session phase. -/
def phase (ui : BingoUI) : Phase :=
  if ui.bingo_active = false then .Idle
  else if ui.continue_button_enabled = true then .Celebrating
  else .Acknowledged

/-- `dismiss_bingo`: returns immediately if the Continue-Playing button is
disabled; otherwise hides the banner and disables the button, keeping
`bingo_active` and `winning_lines` intact. -/
def dismiss_bingo (ui : BingoUI) : BingoUI :=
  if ui.continue_button_enabled = false then ui
  else { ui with continue_button_enabled := false }

/-- `check_and_show_bingo`: recompute `winning_lines` from the board; on
the first non-empty result (while `bingo_active` is false) launch the
celebration, set `bingo_active` and enable Continue-Playing; if the lines
vanished while active, fall through to `dismiss_bingo`. -/
def check_and_show_bingo (ui : BingoUI) : BingoUI :=
  let wl := BingoBoard.check_bingo ui.board
  let ui1 := { ui with winning_lines := wl }
  if wl ≠ [] ∧ ui1.bingo_active = false then
    { ui1 with bingo_active := true, continue_button_enabled := true,
               celebrations := ui1.celebrations + 1 }
  else if wl = [] ∧ ui1.bingo_active = true then
    dismiss_bingo ui1
  else ui1

/-- `on_tile_click(row, col)`: toggle the cell, then re-run win detection.
Tile click coordinates are always in `0..4`. -/
def on_tile_click (ui : BingoUI) (row col : Fin BingoBoard.size) :
    Option BingoUI :=
  (BingoBoard.toggle_mark ui.board (row.val : Int) (col.val : Int)).map
    fun b2 => check_and_show_bingo { ui with board := b2 }

/-- `BingoUI.reset_marks`: reset the board's marks and return the session
to idle (no winning lines, banner hidden, Continue-Playing disabled). -/
def reset_marks (ui : BingoUI) : BingoUI :=
  { ui with board := ui.board.reset_marks,
            bingo_active := false, winning_lines := [],
            continue_button_enabled := false }

/-- `BingoUI.new_board`: regenerate the board (from a fresh sample) and
return the session to idle. -/
def new_board (ui : BingoUI) (selected : List String) : BingoUI :=
  { ui with board := BingoBoard.generate_board selected,
            bingo_active := false, winning_lines := [],
            continue_button_enabled := false }

/-- The user events that can occur between two board resets: a tile click,
or a click on the Continue-Playing button. -/
inductive UIEvent where
  | click (row col : Fin BingoBoard.size)
  | continueClick
  deriving DecidableEq, Repr

/-- One event dispatch. -/
def step (ui : BingoUI) : UIEvent → Option BingoUI
  | .click r c => on_tile_click ui r c
  | .continueClick => some (dismiss_bingo ui)

/-- A sequence of event dispatches. -/
def run (ui : BingoUI) : List UIEvent → Option BingoUI
  | [] => some ui
  | e :: es => (step ui e).bind fun ui2 => run ui2 es

/-- A session state as it is right after `generate_board`, `new_board` or
`reset_marks`: only the free cell marked, no win recorded, banner down,
and no celebration launched yet (for a reset board: since the reset). -/
def Fresh (ui : BingoUI) : Prop :=
  ui.board.marked = BingoBoard.initMarked ∧ ui.bingo_active = false ∧
    ui.winning_lines = [] ∧ ui.continue_button_enabled = false ∧
    ui.celebrations = 0

end BingoUI

/-- A concrete 24-word sample used for witnesses. -/
def demoWords : List String :=
  ["a", "b", "c", "d", "e", "f", "g", "h", "i", "j", "k", "l",
   "m", "n", "o", "p", "q", "r", "s", "t", "u", "v", "w", "x"]

/-- A concrete freshly generated board used for witnesses and
counterexamples. -/
def demoBoard : BingoBoard := BingoBoard.generate_board demoWords

/-! ### Helper lemmas on the Python indexing primitives -/

lemma pyGet_eq_none_iff {α : Type} (l : List α) (i : Int) :
    pyGet l i = none ↔ (l.length : Int) ≤ i ∨ i < -(l.length : Int) := by
  unfold pyGet
  split_ifs with h1 h2
  · rw [List.get?_eq_none]
    omega
  · rw [List.get?_eq_none]
    omega
  · simp
    omega

lemma pyGet_mem {α : Type} {l : List α} {i : Int} {a : α}
    (h : pyGet l i = some a) : a ∈ l := by
  unfold pyGet at h
  split_ifs at h <;> exact List.get?_mem h

lemma pySet_isSome_iff {α : Type} (l : List α) (i : Int) (a : α) :
    (pySet l i a).isSome ↔ (-(l.length : Int) ≤ i ∧ i < (l.length : Int)) := by
  unfold pySet
  split_ifs with h1 h2 h3 <;> simp <;> omega

/-! ### Helper lemmas on boards -/

namespace BingoBoard

lemma exists_five {α : Type} (l : List α) (h : l.length = 5) :
    ∃ a b c d e, l = [a, b, c, d, e] := by
  obtain ⟨a, l, rfl⟩ := List.exists_of_length_succ l h
  simp only [List.length_cons, Nat.succ.injEq] at h
  obtain ⟨b, l, rfl⟩ := List.exists_of_length_succ l h
  simp only [List.length_cons, Nat.succ.injEq] at h
  obtain ⟨c, l, rfl⟩ := List.exists_of_length_succ l h
  simp only [List.length_cons, Nat.succ.injEq] at h
  obtain ⟨d, l, rfl⟩ := List.exists_of_length_succ l h
  simp only [List.length_cons, Nat.succ.injEq] at h
  obtain ⟨e, l, rfl⟩ := List.exists_of_length_succ l h
  simp only [List.length_cons, Nat.succ.injEq] at h
  rw [List.length_eq_zero] at h
  exact ⟨a, b, c, d, e, by rw [h]⟩

/-- A well-formed marked grid is literally five rows of five flags. -/
lemma wf_destruct (b : BingoBoard) (hwf : WF b) :
    ∃ m00 m01 m02 m03 m04 m10 m11 m12 m13 m14
      m20 m21 m22 m23 m24 m30 m31 m32 m33 m34
      m40 m41 m42 m43 m44 : Bool,
      b.marked = [[m00, m01, m02, m03, m04], [m10, m11, m12, m13, m14],
        [m20, m21, m22, m23, m24], [m30, m31, m32, m33, m34],
        [m40, m41, m42, m43, m44]] := by
  obtain ⟨hlen, hrows⟩ := hwf
  obtain ⟨r0, r1, r2, r3, r4, hm⟩ := exists_five b.marked hlen
  rw [hm] at hrows
  simp only [List.mem_cons, List.not_mem_nil, or_false, forall_eq_or_imp,
    forall_eq] at hrows
  obtain ⟨h0, h1, h2, h3, h4⟩ := hrows
  obtain ⟨a0, a1, a2, a3, a4, rfl⟩ := exists_five r0 h0
  obtain ⟨b0, b1, b2, b3, b4, rfl⟩ := exists_five r1 h1
  obtain ⟨c0, c1, c2, c3, c4, rfl⟩ := exists_five r2 h2
  obtain ⟨d0, d1, d2, d3, d4, rfl⟩ := exists_five r3 h3
  obtain ⟨e0, e1, e2, e3, e4, rfl⟩ := exists_five r4 h4
  exact ⟨a0, a1, a2, a3, a4, b0, b1, b2, b3, b4, c0, c1, c2, c3, c4,
    d0, d1, d2, d3, d4, e0, e1, e2, e3, e4, hm⟩

lemma filterMap_ite_sublist {α β : Type} (p : α → Bool) (f : α → β)
    (l : List α) :
    List.Sublist (l.filterMap fun a => if p a then some (f a) else none)
      (l.map f) := by
  induction l with
  | nil => simp
  | cons a as ih =>
    by_cases h : p a = true
    · simpa [h] using ih.cons₂ (f a)
    · simpa [h] using ih.cons (f a)

/-- The non-center phrases of a generated board, by symbolic evaluation of
the two fill loops. -/
lemma nonCenterWords_generate (s : List String) :
    nonCenterWords (generate_board s) =
      [s.getD 0 "", s.getD 1 "", s.getD 2 "", s.getD 3 "", s.getD 4 "",
       s.getD 5 "", s.getD 6 "", s.getD 7 "", s.getD 8 "", s.getD 9 "",
       s.getD 10 "", s.getD 11 "", s.getD 12 "", s.getD 13 "",
       s.getD 14 "", s.getD 15 "", s.getD 16 "", s.getD 17 "", s.getD 18 "",
       s.getD 19 "", s.getD 20 "", s.getD 21 "", s.getD 22 "",
       s.getD 23 ""] := rfl

lemma getD_list_eq (s : List String) (h : s.length = 24) :
    [s.getD 0 "", s.getD 1 "", s.getD 2 "", s.getD 3 "", s.getD 4 "",
       s.getD 5 "", s.getD 6 "", s.getD 7 "", s.getD 8 "", s.getD 9 "",
       s.getD 10 "", s.getD 11 "", s.getD 12 "", s.getD 13 "",
       s.getD 14 "", s.getD 15 "", s.getD 16 "", s.getD 17 "", s.getD 18 "",
       s.getD 19 "", s.getD 20 "", s.getD 21 "", s.getD 22 "",
       s.getD 23 ""] = s := by
  apply List.ext_getElem
  · simp [h]
  · intro i h1 h2
    simp only [List.length_cons, List.length_nil] at h1
    interval_cases i <;> simp [List.getD_eq_getElem, h]

/-- `check_bingo` reads only the marked grid, and with only the free cell
marked no line is complete. -/
lemma check_bingo_of_initMarked (b : BingoBoard) (h : b.marked = initMarked) :
    check_bingo b = [] := by
  obtain ⟨bb, m⟩ := b
  simp only at h
  subst h
  rfl

end BingoBoard

/-! ### Helper lemmas on the session -/

namespace BingoUI

/-- The invariant maintained by clicks and dismissals between two board
resets: the cached winning lines always equal the win detector's result on
the current board, the celebration has been launched exactly once if a win
has been recorded and never otherwise, and no win recorded means no
winning lines. -/
def SessionInv (ui : BingoUI) : Prop :=
  ui.winning_lines = BingoBoard.check_bingo ui.board ∧
    ui.celebrations = (if ui.bingo_active then 1 else 0) ∧
    (ui.bingo_active = false → ui.winning_lines = [])

lemma step_sessionInv {ui ui' : BingoUI} {e : UIEvent}
    (hinv : SessionInv ui) (hstep : step ui e = some ui') : SessionInv ui' := by
  obtain ⟨h1, h2, h3⟩ := hinv
  cases e with
  | continueClick =>
    simp only [step, Option.some.injEq] at hstep
    subst hstep
    unfold dismiss_bingo
    split_ifs <;> exact ⟨h1, h2, h3⟩
  | click r c =>
    simp only [step, on_tile_click, Option.map_eq_some'] at hstep
    obtain ⟨b2, htog, hui⟩ := hstep
    subst hui
    unfold check_and_show_bingo
    simp only
    split_ifs with hA hB
    · refine ⟨rfl, ?_, ?_⟩
      · simp only [if_true]
        have : ui.bingo_active = false := hA.2
        rw [h2, this]
        simp
      · intro hcon; simp at hcon
    · unfold dismiss_bingo
      have hact : ui.bingo_active = true := hB.2
      split_ifs <;>
        exact ⟨hB.1.symm ▸ rfl, by simpa [hact] using h2,
          fun hcon => by simp [hact] at hcon⟩
    · refine ⟨rfl, by simpa using h2, ?_⟩
      intro hcon
      simp only at hcon
      by_cases hwl : BingoBoard.check_bingo b2 = []
      · exact hwl
      · exact absurd ⟨hwl, hcon⟩ hA

lemma run_sessionInv {ui ui' : BingoUI} {tr : List UIEvent}
    (hinv : SessionInv ui) (hrun : run ui tr = some ui') : SessionInv ui' := by
  induction tr generalizing ui with
  | nil =>
    simp only [run, Option.some.injEq] at hrun
    subst hrun; exact hinv
  | cons e es ih =>
    simp only [run, Option.bind_eq_bind] at hrun
    cases hstep : step ui e with
    | none => rw [hstep] at hrun; exact Option.noConfusion hrun
    | some ui2 =>
      rw [hstep] at hrun
      simp only [Option.some_bind] at hrun
      exact ih (step_sessionInv hinv hstep) hrun

/-- A single tile click: if no win was recorded and the click completes a
line, the celebration launches and the session enters `Celebrating`; if a
win was already recorded, the celebration is not re-launched. -/
lemma click_step_trigger {ui ui2 : BingoUI} {r c : Fin BingoBoard.size}
    (hstep : step ui (.click r c) = some ui2) :
    (ui.bingo_active = false → BingoBoard.check_bingo ui2.board ≠ [] →
      phase ui2 = Phase.Celebrating ∧ ui2.celebrations = ui.celebrations + 1)
    ∧ (ui.bingo_active = true → ui2.celebrations = ui.celebrations) := by
  simp only [step, on_tile_click, Option.map_eq_some'] at hstep
  obtain ⟨b2, htog, hui⟩ := hstep
  subst hui
  unfold check_and_show_bingo
  simp only
  split_ifs with hA hB
  · refine ⟨fun _ _ => ⟨by simp [phase], rfl⟩, fun hact => ?_⟩
    rw [hact] at hA
    simp at hA
  · refine ⟨fun hact _ => absurd hB.2 (by rw [hact]; simp), fun _ => ?_⟩
    unfold dismiss_bingo
    split_ifs <;> rfl
  · refine ⟨fun hact hne => ?_, fun _ => rfl⟩
    simp only at hne
    exact absurd ⟨hne, hact⟩ hA

end BingoUI

/-! ### Concrete states for witnesses and counterexamples -/

open BingoBoard

/-- A marked grid with all of row 0 marked (plus the free cell). -/
def demoWinMarked : List (List Bool) :=
  [[true, true, true, true, true],
   [false, false, false, false, false],
   [false, false, true, false, false],
   [false, false, false, false, false],
   [false, false, false, false, false]]

/-- `demoBoard` with all of row 0 marked. -/
def demoWin : BingoBoard := { board := demoBoard.board, marked := demoWinMarked }

/-- The session right after start-up on `demoBoard`. -/
def demoUI : BingoUI :=
  { board := demoBoard, bingo_active := false, winning_lines := [],
    continue_button_enabled := false, celebrations := 0 }

/-- A click on the top-left tile. -/
def demoClick : BingoUI.UIEvent := .click ⟨0, by decide⟩ ⟨0, by decide⟩

/-- The session after that click. -/
def demoUIclick : BingoUI := (BingoUI.run demoUI [demoClick]).getD demoUI

/-- `demoBoard` after toggling cell (0, 0). -/
def demoToggled00 : BingoBoard :=
  (toggle_mark demoBoard ((0 : Nat) : Int) ((0 : Nat) : Int)).getD demoBoard

/-! ### The claims -/

/-- Claim C1 — for every board, `check_bingo` returns exactly the line
descriptors (among the 5 rows, 5 columns and 2 diagonals) all of whose 5
cells are marked: a descriptor is in the result iff its line is fully
marked, so simultaneous wins are all reported. -/
theorem check_bingo_complete_lines (b : BingoBoard) (d : String × Nat)
    (hd : d ∈ lineDescriptors) :
    d ∈ check_bingo b ↔
      (lineCells d).all (fun rc => markedAt b rc.1 rc.2) = true := by
  fin_cases hd <;>
    simp [check_bingo, lineCells, size, List.mem_filterMap,
      Option.ite_none_right_eq_some, List.range_succ, and_assoc]

/-- Witness for C1 at a concrete winning board: row 0 of `demoWin` is fully
marked and its descriptor is reported. -/
theorem check_bingo_complete_lines_witness :
    ((("row" : String), 0) ∈ check_bingo demoWin ↔
      (lineCells (("row" : String), 0)).all
        (fun rc => markedAt demoWin rc.1 rc.2) = true) :=
  check_bingo_complete_lines demoWin (("row" : String), 0) (by decide)

/-- Claim C2 — for a pool of at least 24 distinct phrases, `generate_board`
(run on the outcome `selected` of `random.sample(pool, 24)`, which on such
a pool has 24 pairwise-distinct entries of the pool) yields a 5x5 board
whose 24 non-center cells carry exactly `selected` in row-major order
skipping the center, whose center carries the sentinel `"FREE SPACE"`, and
whose only marked cell is the center. -/
theorem generate_board_spec (pool selected : List String)
    (hpool : pool.Nodup) (hpoolLen : 24 ≤ pool.length)
    (hlen : selected.length = 24) (hnd : selected.Nodup)
    (hsub : ∀ w ∈ selected, w ∈ pool) :
    (generate_board selected).board.length = 5 ∧
    (∀ row ∈ (generate_board selected).board, row.length = 5) ∧
    nonCenterWords (generate_board selected) = selected ∧
    (nonCenterWords (generate_board selected)).Nodup ∧
    (∀ w ∈ nonCenterWords (generate_board selected), w ∈ pool) ∧
    ((generate_board selected).board.getD 2 []).getD 2 "" = "FREE SPACE" ∧
    (∀ r c, r < 5 → c < 5 →
      markedAt (generate_board selected) r c =
        decide ((r, c) = free_space_pos)) := by
  have heq : nonCenterWords (generate_board selected) = selected := by
    rw [nonCenterWords_generate]
    exact getD_list_eq selected hlen
  refine ⟨rfl, ?_, heq, by rw [heq]; exact hnd, by rw [heq]; exact hsub,
    rfl, ?_⟩
  · intro row hrow
    rw [show (generate_board selected).board =
      [[selected.getD 0 "", selected.getD 1 "", selected.getD 2 "",
        selected.getD 3 "", selected.getD 4 ""],
       [selected.getD 5 "", selected.getD 6 "", selected.getD 7 "",
        selected.getD 8 "", selected.getD 9 ""],
       [selected.getD 10 "", selected.getD 11 "", "FREE SPACE",
        selected.getD 12 "", selected.getD 13 ""],
       [selected.getD 14 "", selected.getD 15 "", selected.getD 16 "",
        selected.getD 17 "", selected.getD 18 ""],
       [selected.getD 19 "", selected.getD 20 "", selected.getD 21 "",
        selected.getD 22 "", selected.getD 23 ""]] from rfl] at hrow
    fin_cases hrow <;> rfl
  · intro r c hr hc
    interval_cases r <;> interval_cases c <;> rfl

/-- Witness for C2 at the concrete 24-word pool `demoWords`, sampled
identically. -/
theorem generate_board_spec_witness :
    nonCenterWords (generate_board demoWords) = demoWords ∧
    (generate_board demoWords).board.length = 5 ∧
    ((generate_board demoWords).board.getD 2 []).getD 2 "" = "FREE SPACE" ∧
    markedAt (generate_board demoWords) 2 2 =
      decide (((2 : Nat), (2 : Nat)) = free_space_pos) :=
  have h := generate_board_spec demoWords demoWords (by decide) (by decide)
    (by decide) (by decide) (by decide)
  ⟨h.2.2.1, h.1, h.2.2.2.2.2.1, h.2.2.2.2.2.2 2 2 (by decide) (by decide)⟩

/-- Counterexample to C3 as stated: on a validly constructed board, the
out-of-range toggle (5, 0) raises `IndexError` (it does not return the
board unchanged), and the out-of-range toggle (-1, 0) succeeds but mutates
the board (Python negative indexing aliases row -1 to row 4). -/
theorem toggle_mark_out_of_range_cex :
    toggle_mark demoBoard 5 0 = none ∧
      toggle_mark demoBoard (-1) 0 ≠ some demoBoard := by decide

/-- Claim C3, amended — out-of-range toggles are not no-ops: on a
well-formed board, `toggle_mark(row, col)` raises `IndexError` exactly when
the coordinates are not the free cell and one of them lies outside Python's
accepted index range `-5 .. 4`; coordinates inside `-5 .. -1` instead wrap
around and toggle a cell counted from the end. -/
theorem toggle_mark_out_of_range (b : BingoBoard) (hwf : WF b)
    (row col : Int) :
    toggle_mark b row col = none ↔
      ((row, col) ≠ ((2 : Int), (2 : Int)) ∧
        ((5 : Int) ≤ row ∨ row < -5 ∨ (5 : Int) ≤ col ∨ col < -5)) := by
  obtain ⟨hlen, hrows⟩ := hwf
  rw [size] at hlen
  unfold toggle_mark
  by_cases hg : (row, col) = ((2 : Int), (2 : Int))
  · rw [if_neg (by simpa [free_space_pos] using hg)]
    simp [hg]
  · rw [if_pos (by simpa [free_space_pos] using hg)]
    cases hrow : pyGet b.marked row with
    | none =>
      simp only [Option.bind_eq_bind, Option.none_bind]
      rw [pyGet_eq_none_iff, hlen] at hrow
      exact iff_of_true (by trivial) ⟨hg, by omega⟩
    | some r =>
      have hrlen : r.length = 5 := hrows r (pyGet_mem hrow)
      have hrowin : ¬ ((5 : Int) ≤ row ∨ row < -5) := by
        intro hcon
        have hno : pyGet b.marked row = none := by
          rw [pyGet_eq_none_iff, hlen]; push_cast; omega
        rw [hno] at hrow; exact Option.noConfusion hrow
      simp only [Option.bind_eq_bind, Option.some_bind]
      cases hcol : pyGet r col with
      | none =>
        simp only [Option.none_bind]
        rw [pyGet_eq_none_iff, hrlen] at hcol
        exact iff_of_true (by trivial) ⟨hg, by omega⟩
      | some v =>
        have hcolin : ¬ ((5 : Int) ≤ col ∨ col < -5) := by
          intro hcon
          have hno : pyGet r col = none := by
            rw [pyGet_eq_none_iff, hrlen]; push_cast; omega
          rw [hno] at hcol; exact Option.noConfusion hcol
        simp only [Option.some_bind]
        obtain ⟨r2, hr2⟩ := Option.isSome_iff_exists.mp
          ((pySet_isSome_iff r col (!v)).mpr (by rw [hrlen]; push_cast; omega))
        obtain ⟨m2, hm2⟩ := Option.isSome_iff_exists.mp
          ((pySet_isSome_iff b.marked row r2).mpr
            (by rw [hlen]; push_cast; omega))
        rw [hr2]
        simp only [Option.some_bind]
        rw [hm2]
        simp only [Option.some_bind]
        exact iff_of_false (by simp) (by rintro ⟨-, hcon⟩; omega)

/-- Witness for the amended C3 at the concrete out-of-range input (5, 0). -/
theorem toggle_mark_out_of_range_witness :
    toggle_mark demoBoard 5 0 = none :=
  (toggle_mark_out_of_range demoBoard (by decide) 5 0).mpr
    ⟨by decide, by decide⟩

/-- Claim C4 — starting from a fresh (generated or reset) board, along any
sequence of tile clicks and dismiss clicks: the recorded winning lines
always equal `check_bingo` of the current board; the celebration is
launched at most once (exactly once if a win has been recorded, never
before); and one further click launches it exactly when no win was
recorded yet and the click leaves a complete line, in which case the
session enters `Celebrating` — a click while a win is already recorded
never re-launches it. -/
theorem celebration_fires_once (ui0 : BingoUI) (h0 : BingoUI.Fresh ui0)
    (tr : List BingoUI.UIEvent) (ui : BingoUI)
    (hrun : BingoUI.run ui0 tr = some ui) :
    ui.winning_lines = check_bingo ui.board ∧
    ui.celebrations ≤ 1 ∧
    ui.celebrations = (if ui.bingo_active = true then 1 else 0) ∧
    (ui.bingo_active = false → ui.winning_lines = []) ∧
    (∀ r c ui2, BingoUI.step ui (.click r c) = some ui2 →
      (ui.bingo_active = false → check_bingo ui2.board ≠ [] →
        BingoUI.phase ui2 = BingoUI.Phase.Celebrating ∧
          ui2.celebrations = ui.celebrations + 1) ∧
      (ui.bingo_active = true → ui2.celebrations = ui.celebrations)) := by
  obtain ⟨hb, ha, hw, hc, hcel⟩ := h0
  have hinv0 : BingoUI.SessionInv ui0 :=
    ⟨by rw [hw, check_bingo_of_initMarked ui0.board hb],
     by rw [hcel, ha]; simp, fun _ => hw⟩
  obtain ⟨h1, h2, h3⟩ := BingoUI.run_sessionInv hinv0 hrun
  refine ⟨h1, ?_, h2, h3, fun r c ui2 hstep => BingoUI.click_step_trigger hstep⟩
  rw [h2]; split_ifs <;> omega

/-- Witness for C4: one concrete click on the fresh `demoUI` session. -/
theorem celebration_fires_once_witness :
    demoUIclick.winning_lines = check_bingo demoUIclick.board ∧
    demoUIclick.celebrations ≤ 1 ∧
    (demoUIclick.bingo_active = false → demoUIclick.winning_lines = []) :=
  have h := celebration_fires_once demoUI ⟨rfl, rfl, rfl, rfl, rfl⟩
    [demoClick] demoUIclick rfl
  ⟨h.1, h.2.1, h.2.2.2.1⟩

/-- Claim C5 — the board generation step fails exactly when the supplied
word pool has fewer than 24 entries (`random.sample(pool, 24)` raises
`ValueError` iff the population is smaller than 24); with at least 24
entries it succeeds. -/
theorem generate_board_fails_iff_small_pool (pool selected : List String) :
    (generate_board_run pool selected = none ↔ pool.length < 24) ∧
    ((generate_board_run pool selected).isSome = true ↔ 24 ≤ pool.length) := by
  unfold generate_board_run
  split_ifs with h <;> simp <;> omega

/-- Counterexample to C6 as stated: `toggle_mark(-3, -3)` passes the
free-cell guard (`(-3, -3) != (2, 2)`) yet, through Python negative-index
wrapping, toggles `marked[2][2]` itself — an operation of the board model
that makes the center cell unmarked. -/
theorem free_cell_unmarked_cex :
    (toggle_mark demoBoard (-3) (-3)).map (fun b => markedAt b 2 2) =
      some false := by decide

/-- Claim C6, amended — the center free cell is marked by `generate_board`
and `reset_marks`, `toggle_mark(2, 2)` is a no-op, and no toggle with
coordinates in the range 0..4 (the only ones the UI can produce) ever
changes the center's marked state; only Python negative-index aliases such
as `toggle_mark(-3, -3)` can unmark it. -/
theorem free_cell_marked_spec (b : BingoBoard) (hwf : WF b)
    (selected : List String) (r c : Nat) (hr : r < 5) (hc : c < 5)
    (b' : BingoBoard) (ht : toggle_mark b (r : Int) (c : Int) = some b') :
    markedAt (generate_board selected) 2 2 = true ∧
    markedAt (reset_marks b) 2 2 = true ∧
    toggle_mark b (2 : Int) (2 : Int) = some b ∧
    markedAt b' 2 2 = markedAt b 2 2 := by
  refine ⟨rfl, rfl, by simp [toggle_mark, free_space_pos], ?_⟩
  obtain ⟨bb, m⟩ := b
  obtain ⟨m00, m01, m02, m03, m04, m10, m11, m12, m13, m14, m20, m21, m22,
    m23, m24, m30, m31, m32, m33, m34, m40, m41, m42, m43, m44, hm⟩ :=
    wf_destruct ⟨bb, m⟩ hwf
  simp only at hm
  subst hm
  clear hwf
  set_option linter.unnecessarySeqFocus false in
  interval_cases r <;> interval_cases c <;>
    (simp [toggle_mark, pyGet, pySet, free_space_pos, Prod.ext_iff] at ht <;>
     subst ht <;> rfl)

/-- Witness for the amended C6 at the concrete in-range toggle (0, 0) on
`demoBoard`. -/
theorem free_cell_marked_spec_witness :
    markedAt (generate_board demoWords) 2 2 = true ∧
    markedAt (reset_marks demoBoard) 2 2 = true ∧
    toggle_mark demoBoard (2 : Int) (2 : Int) = some demoBoard ∧
    markedAt demoToggled00 2 2 = markedAt demoBoard 2 2 :=
  free_cell_marked_spec demoBoard (by decide) demoWords 0 0 (by decide)
    (by decide) demoToggled00 (by decide)

/-- Claim C7 — `reset_marks` keeps the phrase grid, marks exactly the
center free cell, and at the session level clears the winning lines and
returns the phase to `Idle`. -/
theorem reset_marks_spec (b : BingoBoard) (ui : BingoUI) (r c : Nat)
    (hr : r < 5) (hc : c < 5) :
    (reset_marks b).board = b.board ∧
    markedAt (reset_marks b) r c = decide ((r, c) = free_space_pos) ∧
    (BingoUI.reset_marks ui).board = ui.board.reset_marks ∧
    (BingoUI.reset_marks ui).board.board = ui.board.board ∧
    (BingoUI.reset_marks ui).winning_lines = [] ∧
    BingoUI.phase (BingoUI.reset_marks ui) = BingoUI.Phase.Idle := by
  refine ⟨rfl, ?_, rfl, rfl, rfl, rfl⟩
  interval_cases r <;> interval_cases c <;> rfl

/-- Witness for C7 at `demoBoard`, `demoUI` and cell (0, 0). -/
theorem reset_marks_spec_witness :
    (reset_marks demoBoard).board = demoBoard.board ∧
    markedAt (reset_marks demoBoard) 0 0 =
      decide (((0 : Nat), (0 : Nat)) = free_space_pos) ∧
    (BingoUI.reset_marks demoUI).winning_lines = [] ∧
    BingoUI.phase (BingoUI.reset_marks demoUI) = BingoUI.Phase.Idle :=
  have h := reset_marks_spec demoBoard demoUI 0 0 (by decide) (by decide)
  ⟨h.1, h.2.1, h.2.2.2.2.1, h.2.2.2.2.2⟩

/-- Claim C8 — toggling an in-range non-free cell twice returns the whole
board (phrases and every marked flag) to exactly its original state. -/
theorem toggle_mark_twice_id (b : BingoBoard) (hwf : WF b) (r c : Nat)
    (hr : r < 5) (hc : c < 5) (hne : (r, c) ≠ free_space_pos) :
    (toggle_mark b (r : Int) (c : Int)).bind
      (fun b2 => toggle_mark b2 (r : Int) (c : Int)) = some b := by
  obtain ⟨bb, m⟩ := b
  obtain ⟨m00, m01, m02, m03, m04, m10, m11, m12, m13, m14, m20, m21, m22,
    m23, m24, m30, m31, m32, m33, m34, m40, m41, m42, m43, m44, hm⟩ :=
    wf_destruct ⟨bb, m⟩ hwf
  simp only at hm
  subst hm
  clear hwf
  interval_cases r <;> interval_cases c <;>
    first
    | exact absurd rfl hne
    | (clear hne; simp [toggle_mark, pyGet, pySet, free_space_pos,
        Prod.ext_iff])

/-- Witness for C8 at the concrete cell (0, 0) of `demoBoard`. -/
theorem toggle_mark_twice_id_witness :
    (toggle_mark demoBoard ((0 : Nat) : Int) ((0 : Nat) : Int)).bind
      (fun b2 => toggle_mark b2 ((0 : Nat) : Int) ((0 : Nat) : Int)) =
      some demoBoard :=
  toggle_mark_twice_id demoBoard (by decide) 0 0 (by decide) (by decide)
    (by decide)

/-- Claim C9 — `check_bingo` never reports duplicates, reports only the 12
possible descriptors, and reports them in the fixed order rows 0..4, then
columns 0..4, then the two diagonals: its result is always a duplicate-free
sublist of `lineDescriptors`. -/
theorem check_bingo_nodup_ordered (b : BingoBoard) :
    List.Sublist (check_bingo b) lineDescriptors ∧
      (check_bingo b).Nodup := by
  have hsub : List.Sublist (check_bingo b) lineDescriptors := by
    unfold check_bingo lineDescriptors
    refine List.Sublist.append ?_
      (List.Sublist.append ?_ (List.Sublist.append ?_ ?_))
    · exact filterMap_ite_sublist _ _ _
    · exact filterMap_ite_sublist _ _ _
    · split <;> simp
    · split <;> simp
  exact ⟨hsub, hsub.nodup (by decide)⟩

/-- Claim C10 — right after `generate_board` or `reset_marks`, when only
the center cell is marked, `check_bingo` returns the empty list. -/
theorem fresh_board_no_win (selected : List String) (b : BingoBoard) :
    check_bingo (generate_board selected) = [] ∧
      check_bingo (reset_marks b) = [] :=
  ⟨check_bingo_of_initMarked _ rfl, check_bingo_of_initMarked _ rfl⟩
